import Mathlib

/-!
Verification of the conversation-history store, event-dedup ledger and
webhook handlers of a chat-relay bridge (a Lark bot plus a Microsoft
Teams variant, src/index.js).

Modelling conventions:
* MongoDB collections are lists of records kept in insertion order.
* `Date.now()` is a logical clock (`MsgStore.clock`) that strictly
  increases at each insert, so insertion order coincides with ascending
  `createdAt` order; the Mongo `_id` used by `deleteOne` is modelled by
  `createdAt`, which is unique in every store reachable from empty.
* JavaScript exceptions are `Except JsError`; a value that may be
  `undefined` is an `Option`; JS truthiness of a string is `falsyStr`.
* The outbound `fetch` transport is passed in as a function from the
  request body to an outcome, so one call site gets one response.
* `JSON.parse(event.message.content)` is modelled by storing the parsed
  object (`MsgContent`) directly in the inbound payload; no claim
  concerns JSON parse failures of the inbound content.
-/

/-- One document of the `Msg` collection (schema at src/index.js:34-40). -/
structure Msg where
  sessionId : String
  question : String
  answer : String
  msgSize : Nat
  createdAt : Nat
deriving Repr, DecidableEq

/-- The `Msg` collection plus the logical clock standing for `Date.now()`. -/
structure MsgStore where
  msgs : List Msg
  clock : Nat
deriving Repr, DecidableEq

/-- `Msg.find({ sessionId }).sort({ createdAt: 1 })`: insertion order equals
ascending `createdAt` order because the clock strictly increases. -/
def msgsFor (sid : String) (s : MsgStore) : List Msg :=
  s.msgs.filter (fun m => m.sessionId == sid)

/-- `Msg.find({ sessionId }).sort({ createdAt: -1 })` (src/index.js:110). -/
def sessionDesc (sid : String) (s : MsgStore) : List Msg :=
  (msgsFor sid s).reverse

/-- The `countList` of `discardConversation` (src/index.js:111-120): each
row paired with the running total `totalSize` inclusive of itself. -/
def cumList : Nat → List Msg → List (Msg × Nat)
  | _, [] => []
  | acc, m :: ms => (m, acc + m.msgSize) :: cumList (acc + m.msgSize) ms

/-- The ids (`_id`, modelled by `createdAt`) marked for deletion: rows whose
inclusive running total exceeds 1024 (src/index.js:122-126). -/
def overIds (sid : String) (s : MsgStore) : List Nat :=
  ((cumList 0 (sessionDesc sid s)).filter (fun p => 1024 < p.2)).map
    (fun p => p.1.createdAt)

/-- `discardConversation` (src/index.js:109-127): the loop of `deleteOne`
calls removes exactly the marked ids, and `countList` is computed before
any deletion, so the final state is one filter over the collection. -/
def discardConversation (sid : String) (s : MsgStore) : MsgStore :=
  { s with msgs := s.msgs.filter (fun m => !((overIds sid s).contains m.createdAt)) }

/-- JS truthiness test for a possibly-undefined string (`!x`). -/
def falsyStr : Option String → Bool
  | none => true
  | some s => s == ""

/-- Errors thrown by the JavaScript code. -/
inductive JsError where
  | typeError
  | validation (msg : String)
  | upstream (msg : String)
  | storage (msg : String)
  | network (msg : String)
  | jsonDecode (msg : String)
deriving Repr, DecidableEq

/-- `saveConversation` (src/index.js:95-107): validate, insert a turn with
`msgSize = question.length + answer.length` and the current time, then
run the trim pass.  The catch block rethrows, so errors propagate. -/
def saveConversation (sessionId question : String) (answer : Option String)
    (s : MsgStore) : Except JsError MsgStore :=
  match answer with
  | none => .error (.validation "Question or answer is missing or empty.")
  | some a =>
    if question == "" || a == "" then
      .error (.validation "Question or answer is missing or empty.")
    else
      let msgSize := question.length + a.length
      let s1 : MsgStore :=
        { msgs := s.msgs ++ [⟨sessionId, question, a, msgSize, s.clock⟩],
          clock := s.clock + 1 }
      .ok (discardConversation sessionId s1)

/-- `clearConversation` (src/index.js:129-131): `deleteMany({ sessionId })`. -/
def clearConversation (sid : String) (s : MsgStore) : MsgStore :=
  { s with msgs := s.msgs.filter (fun m => !(m.sessionId == sid)) }

/-- One `{role, content}` entry of the assembled prompt. -/
structure PromptEntry where
  role : String
  content : String
deriving Repr, DecidableEq

/-- `buildConversation` (src/index.js:84-93): for each stored turn push a
user entry then an assistant entry, then push the new question. -/
def buildConversation (sessionId question : String) (s : MsgStore) :
    List PromptEntry :=
  ((msgsFor sessionId s).foldl
    (fun prompt row => prompt ++ [⟨"user", row.question⟩, ⟨"assistant", row.answer⟩])
    []) ++ [⟨"user", question⟩]

/-- Sum of `msgSize` over all turns currently stored for a session. -/
def sessionSize (sid : String) (s : MsgStore) : Nat :=
  ((msgsFor sid s).map (fun m => m.msgSize)).sum

/-- One document of the `Event` collection (schema at src/index.js:29-32);
`content` is absent when the insert supplies no content. -/
structure EventRec where
  event_id : String
  content : Option String
deriving Repr, DecidableEq

/-- A MongoDB write error: `dupKey` is the `error.code === 11000`
uniqueness violation, `other` is any other storage failure. -/
inductive MongoError where
  | dupKey
  | other (msg : String)
deriving Repr, DecidableEq

/-- `new Event({...}).save()` against the unique index on `event_id`:
rejects a second record with the same id instead of overwriting it. -/
def eventSave (id : String) (content : Option String)
    (events : List EventRec) : Except MongoError (List EventRec) :=
  if events.any (fun e => e.event_id == id) then .error .dupKey
  else .ok (events ++ [{ event_id := id, content := content }])

/-- Outcome of an insert attempt on the dedup ledger. -/
inductive RecordOutcome where
  | inserted
  | duplicate
deriving Repr, DecidableEq

/-- The `catch` block pattern at src/index.js:276-283 (and 227-234): a
duplicate-key error (`error.code === 11000`) is absorbed, any other
storage failure is rethrown. -/
def catchDupKey (events : List EventRec) :
    Except MongoError (List EventRec) →
    Except JsError (RecordOutcome × List EventRec)
  | .ok evs => .ok (.inserted, evs)
  | .error .dupKey => .ok (.duplicate, events)
  | .error (.other m) => .error (.storage m)

/-- The dedup ledger's unique-insert attempt: insert relying on the
uniqueness constraint, turning the constraint violation into a
`duplicate` outcome (src/index.js:274-283). -/
def recordIfNew (id : String) (content : Option String)
    (events : List EventRec) : Except JsError (RecordOutcome × List EventRec) :=
  catchDupKey events (eventSave id content events)

/-- Result of `response.json()`: either the parse threw, or a value.  The
value is either something nullish (so `result && result.text` fails on
`result`) or an object whose `text` field may be absent. -/
inductive FlowiseJson where
  | nullish
  | obj (text : Option String)
deriving Repr, DecidableEq

/-- Outcome of `response.json()`. -/
inductive JsonParsed where
  | fail (msg : String)
  | val (j : FlowiseJson)
deriving Repr, DecidableEq

/-- The relevant parts of a `fetch` response. -/
structure FetchResponse where
  ok : Bool
  statusText : String
  jsonResult : JsonParsed
deriving Repr, DecidableEq

/-- Outcome of `fetch` itself: network rejection or a response. -/
inductive FetchResult where
  | netError (msg : String)
  | response (r : FetchResponse)
deriving Repr, DecidableEq

/-- Request body sent by the primary variant's `query`:
`{ question: prompt }` where the prompt is the assembled history. -/
structure PrimaryRequest where
  question : List PromptEntry
deriving Repr, DecidableEq

/-- `query` (src/index.js:148-163): POST the data, parse the JSON body and
return it unchanged.  No status check, no shape check; only a transport
or JSON failure is (re)thrown. -/
def query (fetch : PrimaryRequest → FetchResult) (data : PrimaryRequest) :
    Except JsError FlowiseJson :=
  match fetch data with
  | .netError m => .error (.network m)
  | .response resp =>
    match resp.jsonResult with
    | .fail m => .error (.jsonDecode m)
    | .val j => .ok j

/-- Request body sent by the Teams variant's `queryFlowise`. -/
structure FlowiseRequest where
  question : String
  sessionId : String
deriving Repr, DecidableEq

/-- `sessionId || "default-session"` (src/index.js:354). -/
def defaultSession : Option String → String
  | some s => if s == "" then "default-session" else s
  | none => "default-session"

/-- `queryFlowise` (src/index.js:350-379): build the request, throw on a
non-success status, then require a truthy `text` field and return it;
every failure is rethrown to the caller. -/
def queryFlowise (fetch : FlowiseRequest → FetchResult) (question : String)
    (sessionId : Option String) : Except JsError String :=
  let data : FlowiseRequest := { question := question, sessionId := defaultSession sessionId }
  match fetch data with
  | .netError m => .error (.network m)
  | .response resp =>
    if !resp.ok then
      .error (.upstream ("Flowise API returned an error: " ++ resp.statusText))
    else
      match resp.jsonResult with
      | .fail m => .error (.jsonDecode m)
      | .val (.obj (some t)) =>
        if t == "" then .error (.upstream "Invalid response from Flowise API")
        else .ok t
      | .val _ => .error (.upstream "Invalid response from Flowise API")

/-- The JSON object returned by the primary handlers: `{ code, message? }`. -/
structure JsResult where
  code : Nat
  message : Option String
deriving Repr, DecidableEq

/-- Observable state of the primary variant: the two collections, the
replies sent through the Lark client, and the downstream requests made. -/
structure SysState where
  events : List EventRec
  store : MsgStore
  replies : List (String × String)
  queries : List PrimaryRequest
deriving Repr, DecidableEq

/-- `reply(messageId, content)` (src/index.js:66-82): a send failure is
caught and logged, never rethrown, so the model always records the send. -/
def pushReply (messageId content : String) (st : SysState) : SysState :=
  { st with replies := st.replies ++ [(messageId, content)] }

/-- The `/help` usage text (src/index.js:134-139). -/
def helpText : String :=
  "Lark GPT manpages\n\nUsage:\n    /clear    remove conversation history for get a new, clean, bot context.\n    /help     get more help message\n  "

/-- `cmdProcess` (src/index.js:51-64): `/help` and any unrecognized
command reply with the usage text, `/clear` clears the session and
confirms; always returns `{ code: 0 }`. -/
def cmdProcess (action sessionId messageId : String) (st : SysState) :
    Except JsError JsResult × SysState :=
  if action == "/help" then
    (.ok { code := 0, message := none }, pushReply messageId helpText st)
  else if action == "/clear" then
    (.ok { code := 0, message := none },
      pushReply messageId "✅ All history removed"
        { st with store := clearConversation sessionId st.store })
  else
    (.ok { code := 0, message := none }, pushReply messageId helpText st)

/-- Split a list at the first occurrence of `pat`, returning the part
before it and the part after it. -/
def firstSplit (pat : List Char) : List Char → Option (List Char × List Char)
  | [] => if pat = [] then some ([], []) else none
  | c :: cs =>
    if pat.isPrefixOf (c :: cs) then some ([], (c :: cs).drop pat.length)
    else (firstSplit pat cs).map (fun p => (c :: p.1, p.2))

/-- JavaScript `String.prototype.replace` with a string pattern: replaces
only the FIRST occurrence (unlike Lean's `String.replace`). -/
def jsReplaceFirst (s pat repl : String) : String :=
  match firstSplit pat.data s.data with
  | some (a, b) => ⟨a ++ repl.data ++ b⟩
  | none => s

/-- Strip leading whitespace from a character list (structural, so it
reduces definitionally). -/
def trimLeftList : List Char → List Char
  | [] => []
  | c :: cs => if c.isWhitespace then trimLeftList cs else c :: cs

/-- JavaScript `String.prototype.trim`: strip whitespace at both ends. -/
def jsTrim (s : String) : String :=
  ⟨(trimLeftList ((trimLeftList s.data).reverse)).reverse⟩

/-- JavaScript `String.prototype.startsWith`. -/
def jsStartsWith (s pre : String) : Bool :=
  pre.data.isPrefixOf s.data

/-- The parsed `event.message.content`: `JSON.parse` yields an object
whose `text` field may be absent (non-text messages). -/
structure MsgContent where
  text : Option String
deriving Repr, DecidableEq

/-- `handleReply` (src/index.js:206-236).  Steps: strip the mention token
and trim; dispatch commands; otherwise assemble the prompt, call `query`
with its failure CAUGHT and turned into an undefined answer, persist the
turn (rethrowing its errors), send the reply, then best-effort insert
the event id with the raw content, absorbing only duplicate-key errors. -/
def handleReply (fetch : PrimaryRequest → FetchResult) (userInput : MsgContent)
    (sessionId messageId eventId : String) (st : SysState) :
    Except JsError JsResult × SysState :=
  match userInput.text with
  | none => (.error .typeError, st)
  | some rawText =>
    let question := jsTrim (jsReplaceFirst rawText "@_user_1" "")
    let action := jsTrim question
    if jsStartsWith action "/" then
      cmdProcess action sessionId messageId st
    else
      let data : PrimaryRequest := { question := buildConversation sessionId question st.store }
      let st1 := { st with queries := st.queries ++ [data] }
      let openaiResponse : Option String :=
        match query fetch data with
        | .ok (.obj t) => t
        | _ => none
      match saveConversation sessionId question openaiResponse st1.store with
      | .error e => (.error e, st1)
      | .ok store1 =>
        let st2 := pushReply messageId (openaiResponse.getD "")
          { st1 with store := store1 }
        match eventSave eventId (some rawText) st2.events with
        | .ok evs => (.ok { code := 0, message := none }, { st2 with events := evs })
        | .error .dupKey =>
          (.ok { code := 1, message := some "Duplicate event ID" }, st2)
        | .error (.other m) => (.error (.storage m), st2)

/-- `params.header` of the inbound envelope. -/
structure WebhookHeader where
  event_type : String
  event_id : String
deriving Repr, DecidableEq

/-- `params.event.message`. -/
structure MsgMeta where
  message_id : String
  chat_id : String
  message_type : String
  chat_type : String
  content : MsgContent
deriving Repr, DecidableEq

/-- `params.event`. -/
structure MsgEvent where
  message : MsgMeta
  sender_user_id : String
deriving Repr, DecidableEq

/-- The inbound webhook payload of the primary variant. -/
structure WebhookParams where
  encrypt : Bool
  type : Option String
  challenge : Option String
  header : Option WebhookHeader
  event : Option MsgEvent
deriving Repr, DecidableEq

/-- JSON body sent back by the primary route. -/
inductive RouteBody where
  | codeMsg (code : Nat) (message : Option String)
  | challengeEcho (challenge : Option String)
  | doctorResult (code : Nat) (message : String)
deriving Repr, DecidableEq

/-- The configured Lark credentials. -/
structure LarkConfig where
  appId : String
  appSecret : String
deriving Repr, DecidableEq

/-- `doctor` (src/index.js:165-204): self-check of the configuration. -/
def doctor (cfg : LarkConfig) : RouteBody :=
  if cfg.appId == "" then
    .doctorResult 1 "Here is no Lark APP id, please check & re-Deploy & call again"
  else if !(jsStartsWith cfg.appId "cli_") then
    .doctorResult 1 "Your Lark App ID is Wrong, Please Check and call again. Lark APPID must Start with cli"
  else if cfg.appSecret == "" then
    .doctorResult 1 "Here is no Lark APP Secret, please check & re-Deploy & call again"
  else
    .doctorResult 0 "✅ Configuration is correct, you can use this bot in your Lark App"

/-- Session id derivation of the primary variant (src/index.js:266):
plain concatenation of chat id and sender id, with no separator. -/
def sessionIdOf (chatId senderId : String) : String :=
  chatId ++ senderId

/-- Lift a `handleReply` outcome to the route's `res.json(result)`. -/
def mapRoute (r : Except JsError JsResult × SysState) :
    Except JsError RouteBody × SysState :=
  (r.1.map (fun j => .codeMsg j.code j.message), r.2)

/-- `app.post("/webhook")` (src/index.js:238-315).  An `Except.error`
outcome models the async handler rejecting with an uncaught exception,
in which case no JSON response is produced. -/
def webhook (cfg : LarkConfig) (fetch : PrimaryRequest → FetchResult)
    (params : WebhookParams) (debug : Bool) (st : SysState) :
    Except JsError RouteBody × SysState :=
  if params.encrypt then
    (.ok (.codeMsg 1 (some "You have open Encrypt Key Feature, please close it.")), st)
  else if params.type == some "url_verification" then
    (.ok (.challengeEcho params.challenge), st)
  else
    match params.header with
    | none => (.ok (doctor cfg), st)
    | some hdr =>
      if debug then (.ok (doctor cfg), st)
      else if hdr.event_type == "im.message.receive_v1" then
        match params.event with
        | none => (.error .typeError, st)
        | some ev =>
          let eventId := hdr.event_id
          let messageId := ev.message.message_id
          let sessionId := sessionIdOf ev.message.chat_id ev.sender_user_id
          if st.events.any (fun e => e.event_id == eventId) then
            (.ok (.codeMsg 1 none), st)
          else
            match eventSave eventId none st.events with
            | .error .dupKey =>
              (.ok (.codeMsg 1 (some "Duplicate event ID")), st)
            | .error (.other m) => (.error (.storage m), st)
            | .ok evs =>
              let st1 := { st with events := evs }
              if ev.message.chat_type == "p2p" then
                if ev.message.message_type != "text" then
                  (.ok (.codeMsg 0 none),
                    pushReply messageId "Not support other format question, only text." st1)
                else
                  mapRoute (handleReply fetch ev.message.content sessionId messageId eventId st1)
              else if ev.message.chat_type == "group" then
                mapRoute (handleReply fetch ev.message.content sessionId messageId eventId st1)
              else
                (.ok (.codeMsg 2 none), st1)
      else
        (.ok (.codeMsg 2 none), st)

/-- Request body of the Teams variant: a flat `{ text, sessionId }`. -/
structure TeamsRequest where
  text : Option String
  sessionId : Option String
deriving Repr, DecidableEq

/-- JSON body sent back by the Teams route. -/
inductive TeamsBody where
  | message (m : String)
  | error (e : String)
deriving Repr, DecidableEq

/-- HTTP response of the Teams route. -/
structure TeamsResponse where
  status : Nat
  body : TeamsBody
deriving Repr, DecidableEq

/-- `app.post("/teams-webhook")` (src/index.js:382-398): 400 when `text`
or `sessionId` is falsy, `{ message }` on success, 500 `{ error }` when
`queryFlowise` throws. -/
def teamsWebhook (fetch : FlowiseRequest → FetchResult)
    (req : TeamsRequest) : TeamsResponse :=
  if falsyStr req.text || falsyStr req.sessionId then
    { status := 400,
      body := .error "Invalid input. \x27text\x27 and \x27sessionId\x27 are required." }
  else
    match queryFlowise fetch (req.text.getD "") req.sessionId with
    | .ok answer => { status := 200, body := .message answer }
    | .error _ =>
      { status := 500,
        body := .error "Internal Server Error. Please try again later." }

instance {ε α : Type} [DecidableEq ε] [DecidableEq α] : DecidableEq (Except ε α) := fun a b =>
  match a, b with
  | .ok x, .ok y =>
    if h : x = y then .isTrue (by rw [h]) else .isFalse (by intro hh; cases hh; exact h rfl)
  | .error x, .error y =>
    if h : x = y then .isTrue (by rw [h]) else .isFalse (by intro hh; cases hh; exact h rfl)
  | .ok _, .error _ => .isFalse (by intro hh; cases hh)
  | .error _, .ok _ => .isFalse (by intro hh; cases hh)

/-- Uniqueness of the Mongo `_id` (modelled by `createdAt`): holds in every
store reachable from empty because the clock strictly increases. -/
def DistinctIds (s : MsgStore) : Prop :=
  s.msgs.Pairwise (fun x y => x.createdAt ≠ y.createdAt)

/-- Scenario strings: a turn of size 600 (300 + 300)... -/
def scenQ1 : String := String.mk (List.replicate 300 'a')

/-- ...and its answer half. -/
def scenA1 : String := String.mk (List.replicate 300 'b')

/-- Scenario strings: a turn of size 500 (250 + 250)... -/
def scenQ2 : String := String.mk (List.replicate 250 'c')

/-- ...and its answer half. -/
def scenA2 : String := String.mk (List.replicate 250 'd')

/-- Store invariant maintained by the operations: rows sit in strictly
increasing `createdAt` order and all stamps are below the clock.  It
holds for the empty store and is preserved by every operation, which
justifies the `DistinctIds` and sortedness hypotheses used below. -/
def WfStore (s : MsgStore) : Prop :=
  s.msgs.Pairwise (fun x y => x.createdAt < y.createdAt)
  ∧ ∀ m ∈ s.msgs, m.createdAt < s.clock

/-- Concrete configuration for witnesses and counterexamples. -/
def cfgFix : LarkConfig := ⟨"cli_x", "sec"⟩

/-- Empty system state. -/
def stEmpty : SysState := ⟨[], ⟨[], 0⟩, [], []⟩

/-- A transport whose completion endpoint answers 200 with text "pong". -/
def fetchPong : PrimaryRequest → FetchResult :=
  fun _ => .response ⟨true, "OK", .val (.obj (some "pong"))⟩

/-- A transport whose fetch rejects (network failure). -/
def fetchDown : PrimaryRequest → FetchResult :=
  fun _ => .netError "fetch failed"

/-- Inbound payload: fresh message event in a group chat whose
message_type is "post" (not plain text), carrying text "hi". -/
def paramsGroupPost : WebhookParams :=
  ⟨false, none, none, some ⟨"im.message.receive_v1", "ev1"⟩,
   some ⟨⟨"m1", "chatA", "post", "group", ⟨some "hi"⟩⟩, "userB"⟩⟩

/-- Inbound payload: fresh plain-text message event in a p2p chat. -/
def paramsP2pText : WebhookParams :=
  ⟨false, none, none, some ⟨"im.message.receive_v1", "ev2"⟩,
   some ⟨⟨"m2", "c1", "text", "p2p", ⟨some "hello"⟩⟩, "u1"⟩⟩

/-- Inbound payload: fresh image message event in a p2p chat. -/
def paramsP2pImage : WebhookParams :=
  ⟨false, none, none, some ⟨"im.message.receive_v1", "ev4"⟩,
   some ⟨⟨"m4", "c1", "image", "p2p", ⟨none⟩⟩, "u1"⟩⟩

/-- Sum of the sizes of the rows of `l` whose inclusive running total
(started at `acc`) stays within the 1024 budget. -/
def keptSum (acc : Nat) (l : List Msg) : Nat :=
  (((cumList acc l).filter (fun p => p.2 ≤ 1024)).map (fun p => p.1.msgSize)).sum

theorem keptSum_nil (acc : Nat) : keptSum acc [] = 0 := rfl

theorem keptSum_cons (acc : Nat) (m : Msg) (ms : List Msg) :
    keptSum acc (m :: ms) =
      if acc + m.msgSize ≤ 1024 then m.msgSize + keptSum (acc + m.msgSize) ms
      else keptSum (acc + m.msgSize) ms := by
  by_cases hc : acc + m.msgSize ≤ 1024 <;> simp [keptSum, cumList, hc]

/-- The rows within budget never sum past the budget. -/
theorem keptSum_le (l : List Msg) : ∀ acc : Nat,
    acc + keptSum acc l ≤ 1024 ∨ keptSum acc l = 0 := by
  induction l with
  | nil => intro acc; right; rfl
  | cons m ms ih =>
    intro acc
    rw [keptSum_cons]
    by_cases hc : acc + m.msgSize ≤ 1024
    · left
      simp only [hc, if_true]
      rcases ih (acc + m.msgSize) with h1 | h1
      · omega
      · omega
    · simp only [hc, if_false]
      rcases ih (acc + m.msgSize) with h1 | h1
      · left; omega
      · right; exact h1

theorem contains_eq_decide_mem (ids : List Nat) (a : Nat) :
    ids.contains a = decide (a ∈ ids) := List.elem_eq_mem a ids

/-- Whatever ids get marked, every row kept by the deletion filter has an
inclusive running total within budget, so the surviving sizes are
bounded by `keptSum`. -/
theorem filtered_sum_le_keptSum (l : List Msg) : ∀ (acc : Nat) (ids : List Nat),
    (∀ p ∈ cumList acc l, 1024 < p.2 → p.1.createdAt ∈ ids) →
    ((l.filter (fun m => !(ids.contains m.createdAt))).map (fun m => m.msgSize)).sum
      ≤ keptSum acc l := by
  induction l with
  | nil => intro acc ids _; simp [keptSum_nil]
  | cons m ms ih =>
    intro acc ids hin
    have htail : ∀ p ∈ cumList (acc + m.msgSize) ms, 1024 < p.2 → p.1.createdAt ∈ ids := by
      intro p hp hgt
      refine hin p ?_ hgt
      show p ∈ (m, acc + m.msgSize) :: cumList (acc + m.msgSize) ms
      exact List.mem_cons_of_mem _ hp
    have h1 := ih (acc + m.msgSize) ids htail
    rw [keptSum_cons]
    cases hid : ids.contains m.createdAt with
    | true =>
      have hfl : (m :: ms).filter (fun m2 => !(ids.contains m2.createdAt))
          = ms.filter (fun m2 => !(ids.contains m2.createdAt)) := by
        simp only [List.filter_cons, hid, Bool.not_true]
        rfl
      rw [hfl]
      by_cases hc : acc + m.msgSize ≤ 1024
      · rw [if_pos hc]; omega
      · rw [if_neg hc]; omega
    | false =>
      have hmem : m.createdAt ∉ ids := by
        intro hmem
        rw [contains_eq_decide_mem, decide_eq_true hmem] at hid
        cases hid
      have hle : acc + m.msgSize ≤ 1024 := by
        by_contra hgt
        refine hmem (hin (m, acc + m.msgSize) ?_ (by omega))
        show (m, acc + m.msgSize) ∈ (m, acc + m.msgSize) :: cumList (acc + m.msgSize) ms
        exact List.mem_cons_self _ _
      have hfl : (m :: ms).filter (fun m2 => !(ids.contains m2.createdAt))
          = m :: ms.filter (fun m2 => !(ids.contains m2.createdAt)) := by
        simp only [List.filter_cons, hid, Bool.not_false]
        rfl
      rw [hfl, if_pos hle]
      simp only [List.map_cons, List.sum_cons]
      omega

/-- After a trim pass, the surviving turns of the trimmed session sum to
at most 1024 size-units, with no exception: a row whose own size pushes
the running total past the budget is itself deleted. -/
theorem sessionSize_discard_le (sid : String) (s : MsgStore) :
    sessionSize sid (discardConversation sid s) ≤ 1024 := by
  have h1 : msgsFor sid (discardConversation sid s)
      = (msgsFor sid s).filter (fun m => !((overIds sid s).contains m.createdAt)) := by
    unfold msgsFor discardConversation
    rw [List.filter_filter, List.filter_filter]
    exact List.filter_congr (fun m _ => by rw [Bool.and_comm])
  have h2 : ∀ p ∈ cumList 0 (sessionDesc sid s), 1024 < p.2 →
      p.1.createdAt ∈ overIds sid s := by
    intro p hp hgt
    unfold overIds
    exact List.mem_map.mpr ⟨p, List.mem_filter.mpr ⟨hp, by simpa using hgt⟩, rfl⟩
  have h3 := filtered_sum_le_keptSum (sessionDesc sid s) 0 (overIds sid s) h2
  have h4 : sessionSize sid (discardConversation sid s)
      = (((sessionDesc sid s).filter
          (fun m => !((overIds sid s).contains m.createdAt))).map
            (fun m => m.msgSize)).sum := by
    unfold sessionSize sessionDesc
    rw [h1, List.filter_reverse, List.map_reverse, List.sum_reverse]
  rw [h4]
  rcases keptSum_le (sessionDesc sid s) 0 with h5 | h5 <;> omega

/-- C1.  For every session, after any successful append (`saveConversation`
returning `ok`, which includes the trim pass), the sum of `size` over all
remaining turns of that session is at most 1024.  This holds with no
exception, which in particular entails the claim's disjunctive form: the
claim's escape clause (a single turn of size over 1024 surviving alone)
never actually occurs, because `discardConversation` marks a row by its
inclusive running total, so an oversized turn is deleted in its own
trim pass. -/
theorem trim_budget_after_save (sid q : String) (a : Option String)
    (s t : MsgStore) (h : saveConversation sid q a s = Except.ok t) :
    sessionSize sid t ≤ 1024 := by
  cases a with
  | none => exact absurd h (by simp [saveConversation])
  | some a0 =>
    cases hq : (q == "" || a0 == "") with
    | true =>
      have : saveConversation sid q (some a0) s
          = .error (.validation "Question or answer is missing or empty.") := by
        show (if (q == "" || a0 == "") = true
              then (Except.error (JsError.validation "Question or answer is missing or empty.") : Except JsError MsgStore)
              else .ok (discardConversation sid
                { msgs := s.msgs ++ [⟨sid, q, a0, q.length + a0.length, s.clock⟩],
                  clock := s.clock + 1 }))
            = .error (.validation "Question or answer is missing or empty.")
        rw [hq]
        rfl
      rw [this] at h
      exact absurd h (by simp)
    | false =>
      have hs : saveConversation sid q (some a0) s
          = .ok (discardConversation sid
              { msgs := s.msgs ++ [⟨sid, q, a0, q.length + a0.length, s.clock⟩],
                clock := s.clock + 1 }) := by
        show (if (q == "" || a0 == "") = true
              then (Except.error (JsError.validation "Question or answer is missing or empty.") : Except JsError MsgStore)
              else .ok (discardConversation sid
                { msgs := s.msgs ++ [⟨sid, q, a0, q.length + a0.length, s.clock⟩],
                  clock := s.clock + 1 }))
            = .ok (discardConversation sid
              { msgs := s.msgs ++ [⟨sid, q, a0, q.length + a0.length, s.clock⟩],
                clock := s.clock + 1 })
        rw [hq]
        rfl
      rw [hs] at h
      have ht := (Except.ok.injEq _ _).mp h
      rw [← ht]
      exact sessionSize_discard_le sid _

/-- Witness for C1 at a concrete input. -/
theorem trim_budget_after_save_witness :
    sessionSize "s" (MsgStore.mk [⟨"s", "hi", "there", 7, 0⟩] 1) ≤ 1024 :=
  trim_budget_after_save "s" "hi" (some "there") (MsgStore.mk [] 0) _ (by decide)

theorem mem_cumList (l : List Msg) : ∀ (acc : Nat) (p : Msg × Nat),
    p ∈ cumList acc l → p.1 ∈ l := by
  induction l with
  | nil => intro acc p hp; exact absurd hp (List.not_mem_nil p)
  | cons m ms ih =>
    intro acc p hp
    rw [show cumList acc (m :: ms)
        = (m, acc + m.msgSize) :: cumList (acc + m.msgSize) ms from rfl] at hp
    rcases List.mem_cons.mp hp with h1 | h1
    · rw [h1]; exact List.mem_cons_self _ _
    · exact List.mem_cons_of_mem _ (ih (acc + m.msgSize) p h1)

theorem cumList_le_snd (l : List Msg) : ∀ (acc : Nat) (p : Msg × Nat),
    p ∈ cumList acc l → acc ≤ p.2 := by
  induction l with
  | nil => intro acc p hp; exact absurd hp (List.not_mem_nil p)
  | cons m ms ih =>
    intro acc p hp
    rw [show cumList acc (m :: ms)
        = (m, acc + m.msgSize) :: cumList (acc + m.msgSize) ms from rfl] at hp
    rcases List.mem_cons.mp hp with h1 | h1
    · rw [h1]; omega
    · have := ih (acc + m.msgSize) p h1; omega

theorem cumList_pairwise (l : List Msg) :
    l.Pairwise (fun x y => x.createdAt ≠ y.createdAt) → ∀ acc : Nat,
      (cumList acc l).Pairwise (fun x y => x.1.createdAt ≠ y.1.createdAt) := by
  induction l with
  | nil => intro _ acc; exact List.Pairwise.nil
  | cons m ms ih =>
    intro hpw acc
    rcases List.pairwise_cons.mp hpw with ⟨hc, hcs⟩
    show ((m, acc + m.msgSize) :: cumList (acc + m.msgSize) ms).Pairwise _
    exact List.pairwise_cons.mpr
      ⟨fun q hq => hc q.1 (mem_cumList ms (acc + m.msgSize) q hq), ih hcs _⟩

/-- Elements of a list with pairwise-distinct keys are determined by
their key. -/
theorem pairwise_key_inj {α : Type} (f : α → Nat) (l : List α)
    (hpw : l.Pairwise (fun x y => f x ≠ f y)) :
    ∀ a ∈ l, ∀ b ∈ l, f a = f b → a = b := by
  induction l with
  | nil => intro a ha; exact absurd ha (List.not_mem_nil a)
  | cons c cs ih =>
    rcases List.pairwise_cons.mp hpw with ⟨hc, hcs⟩
    intro a ha b hb heq
    rcases List.mem_cons.mp ha with ha1 | ha1 <;> rcases List.mem_cons.mp hb with hb1 | hb1
    · rw [ha1, hb1]
    · exact absurd heq (by rw [ha1]; exact hc b hb1)
    · exact absurd heq.symm (by rw [hb1]; exact hc a ha1)
    · exact ih hcs a ha1 b hb1 heq

theorem desc_pairwise (sid : String) (s : MsgStore) (hd : DistinctIds s) :
    (sessionDesc sid s).Pairwise (fun x y => x.createdAt ≠ y.createdAt) := by
  unfold sessionDesc msgsFor
  exact List.pairwise_reverse.mpr
    ((hd.filter (fun m => m.sessionId == sid)).imp (fun h => h.symm))

/-- Under the per-entry characterization of the marked ids, deleting the
marked rows keeps exactly the rows whose inclusive total is within
budget. -/
theorem filter_not_over_eq (l : List Msg) : ∀ (acc : Nat) (ids : List Nat),
    (∀ p ∈ cumList acc l, (1024 < p.2 ↔ p.1.createdAt ∈ ids)) →
    l.filter (fun m => !(ids.contains m.createdAt))
      = ((cumList acc l).filter (fun p => p.2 ≤ 1024)).map (fun p => p.1) := by
  induction l with
  | nil => intro acc ids _; rfl
  | cons m ms ih =>
    intro acc ids hiff
    have hhead := hiff (m, acc + m.msgSize)
      (show _ ∈ (m, acc + m.msgSize) :: cumList (acc + m.msgSize) ms from
        List.mem_cons_self _ _)
    have htail : ∀ p ∈ cumList (acc + m.msgSize) ms, (1024 < p.2 ↔ p.1.createdAt ∈ ids) := by
      intro p hp
      exact hiff p (show p ∈ (m, acc + m.msgSize) :: cumList (acc + m.msgSize) ms from
        List.mem_cons_of_mem _ hp)
    show (m :: ms).filter _
        = (((m, acc + m.msgSize) :: cumList (acc + m.msgSize) ms).filter
            (fun p => p.2 ≤ 1024)).map (fun p => p.1)
    by_cases hc : acc + m.msgSize ≤ 1024
    · have hnotin : m.createdAt ∉ ids := fun hmem => absurd (hhead.mpr hmem) (by omega)
      have hcontains : ids.contains m.createdAt = false := by
        rw [contains_eq_decide_mem, decide_eq_false hnotin]
      have hl : (m :: ms).filter (fun m2 => !(ids.contains m2.createdAt))
          = m :: ms.filter (fun m2 => !(ids.contains m2.createdAt)) := by
        simp only [List.filter_cons, hcontains, Bool.not_false, if_true]
      have hr : ((m, acc + m.msgSize) :: cumList (acc + m.msgSize) ms).filter
            (fun p => p.2 ≤ 1024)
          = (m, acc + m.msgSize) :: (cumList (acc + m.msgSize) ms).filter
            (fun p => p.2 ≤ 1024) := by
        simp only [List.filter_cons]
        rw [if_pos (by simpa using hc)]
      rw [hl, hr, List.map_cons, ih (acc + m.msgSize) ids htail]
    · have hin2 : m.createdAt ∈ ids := hhead.mp (by omega)
      have hcontains : ids.contains m.createdAt = true := by
        rw [contains_eq_decide_mem, decide_eq_true hin2]
      have hl : (m :: ms).filter (fun m2 => !(ids.contains m2.createdAt))
          = ms.filter (fun m2 => !(ids.contains m2.createdAt)) := by
        simp only [List.filter_cons, hcontains, Bool.not_true]
        rfl
      have hr : ((m, acc + m.msgSize) :: cumList (acc + m.msgSize) ms).filter
            (fun p => p.2 ≤ 1024)
          = (cumList (acc + m.msgSize) ms).filter (fun p => p.2 ≤ 1024) := by
        simp only [List.filter_cons]
        rw [if_neg (by simpa using hc)]
      rw [hl, hr, ih (acc + m.msgSize) ids htail]

/-- With unique ids, an entry's running total exceeds the budget exactly
when its id is marked for deletion. -/
theorem over_iff (sid : String) (s : MsgStore) (hd : DistinctIds s) :
    ∀ p ∈ cumList 0 (sessionDesc sid s),
      (1024 < p.2 ↔ p.1.createdAt ∈ overIds sid s) := by
  intro p hp
  constructor
  · intro hgt
    unfold overIds
    exact List.mem_map.mpr ⟨p, List.mem_filter.mpr ⟨hp, by simpa using hgt⟩, rfl⟩
  · intro hmem
    unfold overIds at hmem
    rcases List.mem_map.mp hmem with ⟨p2, hp2, heq⟩
    rcases List.mem_filter.mp hp2 with ⟨hp2mem, hp2gt⟩
    have hpw := cumList_pairwise (sessionDesc sid s) (desc_pairwise sid s hd) 0
    have heqp := pairwise_key_inj (fun x => x.1.createdAt) _ hpw p hp p2 hp2mem heq.symm
    rw [heqp]
    simpa using hp2gt

theorem msgsFor_discard (sid : String) (s : MsgStore) :
    msgsFor sid (discardConversation sid s)
      = (msgsFor sid s).filter (fun m => !((overIds sid s).contains m.createdAt)) := by
  unfold msgsFor discardConversation
  rw [List.filter_filter, List.filter_filter]
  exact List.filter_congr (fun m _ => by rw [Bool.and_comm])

/-- With unique ids the trim pass keeps, in order, exactly the rows of the
newest-first walk whose inclusive running total stays within 1024. -/
theorem discard_kept (sid : String) (s : MsgStore) (hd : DistinctIds s) :
    msgsFor sid (discardConversation sid s)
      = (((cumList 0 (sessionDesc sid s)).filter (fun p => p.2 ≤ 1024)).map
          (fun p => p.1)).reverse := by
  rw [msgsFor_discard]
  have h2 : (msgsFor sid s).filter (fun m => !((overIds sid s).contains m.createdAt))
      = ((sessionDesc sid s).filter
          (fun m => !((overIds sid s).contains m.createdAt))).reverse := by
    unfold sessionDesc
    rw [List.filter_reverse, List.reverse_reverse]
  rw [h2]
  congr 1
  exact filter_not_over_eq (sessionDesc sid s) 0 (overIds sid s) (over_iff sid s hd)

/-- The within-budget rows form a prefix of the newest-first walk, because
the running total never decreases. -/
theorem keepCum_prefix (l : List Msg) : ∀ acc : Nat,
    ∃ j, ((cumList acc l).filter (fun p => p.2 ≤ 1024)).map (fun p => p.1)
      = l.take j := by
  induction l with
  | nil => intro acc; exact ⟨0, rfl⟩
  | cons m ms ih =>
    intro acc
    by_cases hc : acc + m.msgSize ≤ 1024
    · rcases ih (acc + m.msgSize) with ⟨j, hj⟩
      refine ⟨j + 1, ?_⟩
      show (((m, acc + m.msgSize) :: cumList (acc + m.msgSize) ms).filter
        (fun p => p.2 ≤ 1024)).map (fun p => p.1) = m :: ms.take j
      simp only [List.filter_cons]
      rw [if_pos (by simpa using hc), List.map_cons, hj]
    · have hnil : (cumList (acc + m.msgSize) ms).filter (fun p => p.2 ≤ 1024) = [] := by
        refine List.filter_eq_nil_iff.mpr ?_
        intro p hp
        have := cumList_le_snd ms (acc + m.msgSize) p hp
        simp only [decide_eq_true_eq]
        omega
      refine ⟨0, ?_⟩
      show (((m, acc + m.msgSize) :: cumList (acc + m.msgSize) ms).filter
        (fun p => p.2 ≤ 1024)).map (fun p => p.1) = []
      simp only [List.filter_cons]
      rw [if_neg (by simpa using hc), hnil]
      rfl

/-- The turns surviving a trim pass are a suffix of the session's turns in
chronological order: the most recent turns are kept, the oldest
discarded. -/
theorem discard_suffix (sid : String) (s : MsgStore) (hd : DistinctIds s) :
    List.IsSuffix (msgsFor sid (discardConversation sid s)) (msgsFor sid s) := by
  rcases keepCum_prefix (sessionDesc sid s) 0 with ⟨j, hj⟩
  rw [discard_kept sid s hd, hj]
  refine ⟨((sessionDesc sid s).drop j).reverse, ?_⟩
  rw [← List.reverse_append, List.take_append_drop]
  unfold sessionDesc
  rw [List.reverse_reverse]

/-- With unique ids a trim pass for one session never deletes another
session's turns. -/
theorem discard_other_sessions (sid sid2 : String) (s : MsgStore)
    (hd : DistinctIds s) (hne : sid2 ≠ sid) :
    msgsFor sid2 (discardConversation sid s) = msgsFor sid2 s := by
  unfold msgsFor discardConversation
  rw [List.filter_filter]
  refine List.filter_congr ?_
  intro m hm
  cases hs : (m.sessionId == sid2) with
  | false => rfl
  | true =>
    have hnotin : m.createdAt ∉ overIds sid s := by
      intro hmem
      unfold overIds at hmem
      rcases List.mem_map.mp hmem with ⟨p, hpfil, heq⟩
      rcases List.mem_filter.mp hpfil with ⟨hpmem, _⟩
      have hp1 : p.1 ∈ sessionDesc sid s := mem_cumList _ 0 p hpmem
      unfold sessionDesc msgsFor at hp1
      rw [List.mem_reverse] at hp1
      rcases List.mem_filter.mp hp1 with ⟨hp1mem, hp1sid⟩
      have hd2 : s.msgs.Pairwise (fun x y => x.createdAt ≠ y.createdAt) := hd
      have heqm : m = p.1 :=
        pairwise_key_inj (fun x => x.createdAt) s.msgs hd2 m hm p.1 hp1mem heq.symm
      have h1 : m.sessionId = sid2 := by simpa using hs
      have h2 : p.1.sessionId = sid := by simpa using hp1sid
      rw [heqm, h2] at h1
      exact hne h1.symm
    have : (overIds sid s).contains m.createdAt = false := by
      rw [contains_eq_decide_mem, decide_eq_false hnotin]
    rw [this]
    rfl

/-- C2.  The trim pass walks the session's turns newest first with a
running inclusive total of `size` and deletes exactly the turns whose
total exceeds 1024 (first conjunct, under uniqueness of the store ids,
which `_id` guarantees): the survivors are exactly the newest-first
prefix within budget (so an oversized turn is deleted together with
everything older), they form a suffix of the chronological order (most
recent kept, oldest discarded), and other sessions are untouched.
Second conjunct: appending turns of size 600 then 500 leaves only the
500-size turn. -/
theorem discard_trim_spec :
    (∀ (s : MsgStore) (sid : String), DistinctIds s →
        msgsFor sid (discardConversation sid s)
          = (((cumList 0 (sessionDesc sid s)).filter (fun p => p.2 ≤ 1024)).map
              (fun p => p.1)).reverse
        ∧ List.IsSuffix (msgsFor sid (discardConversation sid s)) (msgsFor sid s)
        ∧ ∀ sid2, sid2 ≠ sid →
            msgsFor sid2 (discardConversation sid s) = msgsFor sid2 s)
    ∧ Except.map (fun st => (msgsFor "s" st).map (fun m => (m.question, m.msgSize)))
        (saveConversation "s" scenQ1 (some scenA1) (MsgStore.mk [] 0) >>=
          saveConversation "s" scenQ2 (some scenA2))
        = .ok [(scenQ2, 500)] := by
  constructor
  · intro s sid hd
    exact ⟨discard_kept sid s hd, discard_suffix sid s hd,
      fun sid2 hne => discard_other_sessions sid sid2 s hd hne⟩
  · set_option maxRecDepth 10000 in decide

/-- Witness for C2's first conjunct at a concrete two-turn store: the
oversized older turn (size 2000) is dropped, the recent 500-size turn
survives. -/
theorem discard_trim_spec_witness :
    msgsFor "s" (discardConversation "s"
        (MsgStore.mk [⟨"s", "q", "a", 2000, 0⟩, ⟨"s", "r", "b", 500, 1⟩] 2))
      = (((cumList 0 (sessionDesc "s"
            (MsgStore.mk [⟨"s", "q", "a", 2000, 0⟩, ⟨"s", "r", "b", 500, 1⟩] 2))).filter
          (fun p => p.2 ≤ 1024)).map (fun p => p.1)).reverse :=
  (discard_trim_spec.1
    (MsgStore.mk [⟨"s", "q", "a", 2000, 0⟩, ⟨"s", "r", "b", 500, 1⟩] 2) "s"
    (by unfold DistinctIds; decide)).1

/-- C3.  Recording the same event id twice yields `inserted` then
`duplicate`, the ledger ends with exactly one record for that id, and
the uniqueness violation is absorbed rather than raised, while any
other storage failure propagates through the catch block as an error. -/
theorem recordIfNew_idempotent :
    (∀ (id : String) (c1 c2 : Option String) (events : List EventRec),
        events.countP (fun e => e.event_id == id) = 0 →
        recordIfNew id c1 events
            = .ok (.inserted, events ++ [{ event_id := id, content := c1 }])
        ∧ recordIfNew id c2 (events ++ [{ event_id := id, content := c1 }])
            = .ok (.duplicate, events ++ [{ event_id := id, content := c1 }])
        ∧ (events ++ [(⟨id, c1⟩ : EventRec)]).countP
            (fun e => e.event_id == id) = 1)
    ∧ (∀ (evs : List EventRec) (m : String),
        catchDupKey evs (.error (.other m)) = .error (.storage m)) := by
  constructor
  · intro id c1 c2 events h0
    have hnone : ∀ e ∈ events, ¬((fun e => e.event_id == id) e = true) :=
      List.countP_eq_zero.mp h0
    have hany : events.any (fun e => e.event_id == id) = false := by
      rw [Bool.eq_false_iff]
      intro habs
      rcases List.any_eq_true.mp habs with ⟨e, he, hpe⟩
      exact hnone e he hpe
    refine ⟨?_, ?_, ?_⟩
    · unfold recordIfNew eventSave
      rw [hany]
      rfl
    · have hany2 : (events ++ [(⟨id, c1⟩ : EventRec)]).any
          (fun e => e.event_id == id) = true := by
        simp [List.any_append]
      unfold recordIfNew eventSave
      rw [hany2]
      rfl
    · rw [List.countP_append, h0]
      simp [List.countP_cons]
  · intro evs m
    rfl

/-- Witness for C3 at a concrete input: first insert on an empty ledger. -/
theorem recordIfNew_idempotent_witness :
    recordIfNew "e1" (some "x") []
      = .ok (.inserted, [{ event_id := "e1", content := some "x" }]) :=
  (recordIfNew_idempotent.1 "e1" (some "x") none [] (by decide)).1

theorem foldl_append_eq (f : Msg → List PromptEntry) :
    ∀ (l : List Msg) (init : List PromptEntry),
      l.foldl (fun acc row => acc ++ f row) init = init ++ (l.map f).flatten := by
  intro l
  induction l with
  | nil => intro init; simp
  | cons m ms ih =>
    intro init
    simp only [List.foldl_cons, List.map_cons, List.flatten_cons, ih, List.append_assoc]

/-- C9.  The assembled prompt is the session's stored turns, each
contributing a user entry with its question immediately followed by an
assistant entry with its answer, with one final user entry holding the
new question, and nothing dropped; and under the store invariant that
rows sit in non-decreasing `createdAt` order (guaranteed by the strictly
increasing clock), the turns enter the prompt in non-decreasing
creation-time order. -/
theorem buildConversation_spec :
    ∀ (s : MsgStore) (sid q : String),
      buildConversation sid q s
        = ((msgsFor sid s).map
            (fun m => [⟨"user", m.question⟩, ⟨"assistant", m.answer⟩])).flatten
          ++ [⟨"user", q⟩]
      ∧ (s.msgs.Pairwise (fun x y => x.createdAt ≤ y.createdAt) →
          (msgsFor sid s).Pairwise (fun x y => x.createdAt ≤ y.createdAt)) := by
  intro s sid q
  constructor
  · unfold buildConversation
    rw [foldl_append_eq]
    simp
  · intro hs
    exact hs.filter (fun m => m.sessionId == sid)

/-- Witness for C9's ordering conjunct at a concrete sorted store. -/
theorem buildConversation_spec_witness :
    (msgsFor "s" (MsgStore.mk [⟨"s", "q1", "a1", 4, 0⟩, ⟨"s", "q2", "a2", 4, 1⟩] 2)).Pairwise
      (fun x y => x.createdAt ≤ y.createdAt) :=
  (buildConversation_spec
    (MsgStore.mk [⟨"s", "q1", "a1", 4, 0⟩, ⟨"s", "q2", "a2", 4, 1⟩] 2) "s" "q3").2
    (by decide)

/-- C10.  The primary variant's session id is the bare concatenation of
chat id and sender id, which is not injective: the distinct pairs
("ab","c") and ("a","bc") map to the same session id "abc", and prompt
assembly for the two pairs reads the very same conversation history. -/
theorem sessionId_collision :
    sessionIdOf "ab" "c" = sessionIdOf "a" "bc"
    ∧ (("ab", "c") : String × String) ≠ ("a", "bc")
    ∧ buildConversation (sessionIdOf "ab" "c") "hi"
        (MsgStore.mk [⟨"abc", "q0", "a0", 4, 0⟩] 1)
      = buildConversation (sessionIdOf "a" "bc") "hi"
        (MsgStore.mk [⟨"abc", "q0", "a0", 4, 0⟩] 1) :=
  ⟨rfl, by decide, rfl⟩

/-- C5 counterexample.  A fresh message-received event in a group chat
with `message_type = "post"` (not plain text) is NOT answered with the
fixed unsupported-format reply and does NOT terminate before the
downstream query: the group branch has no message-type gate, so the
handler assembles the prompt, performs the downstream query (the
`queries` log is non-empty) and replies with the generated text. -/
theorem group_nontext_invokes_query_cex :
    (paramsGroupPost.event.map (fun ev => ev.message.message_type) = some "post")
    ∧ (paramsGroupPost.event.map (fun ev => ev.message.chat_type) = some "group")
    ∧ (webhook cfgFix fetchPong paramsGroupPost false stEmpty).2.queries
        = [⟨[⟨"user", "hi"⟩]⟩]
    ∧ (webhook cfgFix fetchPong paramsGroupPost false stEmpty).2.replies
        = [("m1", "pong")] := by
  refine ⟨rfl, rfl, ?_, ?_⟩ <;> rfl

/-- C5 amended.  Only the direct (p2p) branch applies the message-type
gate: for a fresh message-received event in a p2p chat whose message
type is not plain text, the handler sends the fixed unsupported-format
reply and terminates without invoking the downstream query (the final
state shows the dedup insert and that one reply, with the store, the
reply log and the query log otherwise untouched); group messages are
processed regardless of message type (see the counterexample). -/
theorem p2p_nontext_gate (cfg : LarkConfig) (fetch : PrimaryRequest → FetchResult)
    (params : WebhookParams) (st : SysState) (hdr : WebhookHeader) (ev : MsgEvent)
    (henc : params.encrypt = false)
    (hty : params.type ≠ some "url_verification")
    (hhdr : params.header = some hdr)
    (hevt : hdr.event_type = "im.message.receive_v1")
    (hev : params.event = some ev)
    (hfresh : st.events.any (fun e => e.event_id == hdr.event_id) = false)
    (hp2p : ev.message.chat_type = "p2p")
    (hmt : ev.message.message_type ≠ "text") :
    webhook cfg fetch params false st
      = (.ok (.codeMsg 0 none),
         { st with
             events := st.events ++ [⟨hdr.event_id, none⟩],
             replies := st.replies
               ++ [(ev.message.message_id, "Not support other format question, only text.")] }) := by
  have htyb : (params.type == some "url_verification") = false :=
    beq_eq_false_iff_ne.mpr hty
  have hmtb : (ev.message.message_type != "text") = true := by
    simpa using hmt
  simp only [webhook, eventSave, pushReply, henc, htyb, hhdr, hevt, hev, hp2p, hmtb,
    hfresh, Bool.false_eq_true, if_false, beq_self_eq_true, if_true]

/-- Witness for the p2p message-type gate at a concrete image message. -/
theorem p2p_nontext_gate_witness :
    webhook cfgFix fetchPong paramsP2pImage false stEmpty
      = (.ok (.codeMsg 0 none),
         { stEmpty with
             events := [⟨"ev4", none⟩],
             replies := [("m4", "Not support other format question, only text.")] }) :=
  p2p_nontext_gate cfgFix fetchPong paramsP2pImage stEmpty
    ⟨"im.message.receive_v1", "ev4"⟩ ⟨⟨"m4", "c1", "image", "p2p", ⟨none⟩⟩, "u1"⟩
    rfl (by decide) rfl rfl rfl rfl rfl (by decide)

/-- C4 counterexample.  A fresh plain-text p2p message event carrying raw
text "hello" completes the conversational path (the reply "pong" is
sent), yet the ledger record for its event id ends with NO stored
content: the dedup step already inserted the bare id, so the later
content-bearing insert always hits the duplicate-key path and is
swallowed, and the handler even returns the duplicate code 1. -/
theorem conversational_content_not_stored_cex :
    (webhook cfgFix fetchPong paramsP2pText false stEmpty).1
      = .ok (.codeMsg 1 (some "Duplicate event ID"))
    ∧ (webhook cfgFix fetchPong paramsP2pText false stEmpty).2.events
      = [⟨"ev2", none⟩]
    ∧ (webhook cfgFix fetchPong paramsP2pText false stEmpty).2.replies
      = [("m2", "pong")]
    ∧ paramsP2pText.event.map (fun ev => ev.message.content) = some ⟨some "hello"⟩ :=
  ⟨rfl, rfl, rfl, rfl⟩

theorem cmdProcess_events (action sessionId messageId : String) (st : SysState) :
    (cmdProcess action sessionId messageId st).2.events = st.events := by
  unfold cmdProcess pushReply clearConversation
  by_cases h1 : (action == "/help") = true
  · rw [if_pos h1]
  · rw [if_neg h1]
    by_cases h2 : (action == "/clear") = true
    · rw [if_pos h2]
    · rw [if_neg h2]

/-- C4 amended.  Whenever `handleReply` runs for an event id that is
already present in the ledger — which is always the case on the webhook
path, since the dedup step inserts the bare id before `handleReply` is
called — the ledger is left unchanged: the content-bearing insert of the
conversational path always fails with a duplicate-key error that is
swallowed (surfacing as the code-1 "Duplicate event ID" result), so the
raw payload text is never stored; the catch block would rethrow any
non-duplicate storage error on that write. -/
theorem content_write_always_duplicate (fetch : PrimaryRequest → FetchResult)
    (ui : MsgContent) (sessionId messageId eventId : String) (st : SysState)
    (hpresent : st.events.any (fun e => e.event_id == eventId) = true) :
    (handleReply fetch ui sessionId messageId eventId st).2.events = st.events := by
  obtain ⟨text⟩ := ui
  cases text with
  | none => rfl
  | some raw =>
    simp only [handleReply]
    split
    · exact cmdProcess_events _ _ _ _
    · split
      · rfl
      · simp only [pushReply, eventSave, hpresent, if_true]

/-- Witness for C4's amended theorem at a concrete ledger already holding
the event id. -/
theorem content_write_always_duplicate_witness :
    (handleReply fetchPong ⟨some "hello"⟩ "c1u1" "m2" "ev2"
        { stEmpty with events := [⟨"ev2", none⟩] }).2.events
      = [⟨"ev2", none⟩] :=
  content_write_always_duplicate fetchPong ⟨some "hello"⟩ "c1u1" "m2" "ev2"
    { stEmpty with events := [⟨"ev2", none⟩] } rfl

/-- C6 counterexample.  The PRIMARY variant's `query` performs no status
or shape check at all: on a non-success HTTP status carrying a JSON body
with no `text` field it still succeeds, returning the parsed body, so
the downstream query operation does not fail exactly on non-success
status or missing text. -/
theorem primary_query_ignores_status_cex :
    query (fun _ => .response ⟨false, "Internal Server Error", .val (.obj none)⟩) ⟨[]⟩
      = .ok (.obj none) := rfl

/-- C6 amended.  Only the secondary variant's `queryFlowise` has the
claimed contract: given a response whose JSON body parses, it succeeds
exactly when the status is success AND the body is an object with a
non-empty `text` field, in which case it returns that text (any failure
is an `Except.error`, the model of the thrown `UpstreamError`).  The
primary variant's `query` returns whatever JSON body was parsed,
regardless of status or shape. -/
theorem query_clients_spec :
    (∀ (resp : FetchResponse) (j : FlowiseJson) (q : String) (sid : Option String),
        resp.jsonResult = .val j →
        ((∃ t, queryFlowise (fun _ => .response resp) q sid = .ok t)
            ↔ (resp.ok = true ∧ ∃ t, j = .obj (some t) ∧ t ≠ ""))
        ∧ (∀ t, resp.ok = true → j = .obj (some t) → t ≠ "" →
            queryFlowise (fun _ => .response resp) q sid = .ok t))
    ∧ (∀ (resp : FetchResponse) (j : FlowiseJson) (data : PrimaryRequest),
        resp.jsonResult = .val j →
        query (fun _ => .response resp) data = .ok j) := by
  constructor
  · intro resp j q sid hj
    obtain ⟨rok, rst, rj⟩ := resp
    cases hj
    constructor
    · cases rok with
      | false => simp [queryFlowise]
      | true =>
        cases j with
        | nullish => simp [queryFlowise]
        | obj otext =>
          cases otext with
          | none => simp [queryFlowise]
          | some t =>
            by_cases ht : t = ""
            · subst ht; simp [queryFlowise]
            · simp [queryFlowise, ht]
    · intro t hok hjt hne
      cases hok
      cases hjt
      simp [queryFlowise, hne]
  · intro resp j data hj
    obtain ⟨rok, rst, rj⟩ := resp
    cases hj
    rfl

/-- Witness for C6's amended theorem at a concrete well-formed response. -/
theorem query_clients_spec_witness :
    query (fun _ => .response ⟨true, "OK", .val (.obj (some "pong"))⟩) ⟨[]⟩
      = .ok (.obj (some "pong")) :=
  query_clients_spec.2 ⟨true, "OK", .val (.obj (some "pong"))⟩ (.obj (some "pong")) ⟨[]⟩ rfl

/-- C7 counterexample.  In the primary conversational path a downstream
fetch failure does NOT propagate: it is caught and logged where it
occurs, the answer stays undefined, and `saveConversation` then throws a
validation error that escapes the route handler uncaught — the route
produces no JSON response at all (Except.error), no reply is ever sent
to the user (`replies = []`), even though the query was attempted
(`queries` non-empty). -/
theorem primary_query_failure_mangled_cex :
    (webhook cfgFix fetchDown paramsP2pText false stEmpty).1
      = .error (.validation "Question or answer is missing or empty.")
    ∧ (webhook cfgFix fetchDown paramsP2pText false stEmpty).2.replies = []
    ∧ (webhook cfgFix fetchDown paramsP2pText false stEmpty).2.queries
      = [⟨[⟨"user", "hello"⟩]⟩] :=
  ⟨rfl, rfl, rfl⟩

/-- C7 amended.  Failures of the downstream query propagate only in the
secondary variant: there, a `queryFlowise` failure is caught by the
route and answered with the generic 500 error body.  In the primary
conversational path the query failure itself is swallowed (caught and
logged), the undefined answer then makes `saveConversation` throw a
validation error which escapes `handleReply` — so the route handler
rejects with that error, sending no reply to the user and producing no
JSON response; the final state shows the query was attempted exactly
once and nothing else changed.  No retry happens in either path. -/
theorem downstream_failure_paths :
    (∀ (fetch : FlowiseRequest → FetchResult) (req : TeamsRequest) (e : JsError),
        (falsyStr req.text || falsyStr req.sessionId) = false →
        queryFlowise fetch (req.text.getD "") req.sessionId = .error e →
        teamsWebhook fetch req
          = ⟨500, .error "Internal Server Error. Please try again later."⟩)
    ∧ (∀ (fetch : PrimaryRequest → FetchResult)
        (raw sessionId messageId eventId : String) (st : SysState) (e : JsError),
        jsStartsWith (jsTrim (jsTrim (jsReplaceFirst raw "@_user_1" ""))) "/" = false →
        query fetch ⟨buildConversation sessionId
            (jsTrim (jsReplaceFirst raw "@_user_1" "")) st.store⟩ = .error e →
        handleReply fetch ⟨some raw⟩ sessionId messageId eventId st
          = (.error (.validation "Question or answer is missing or empty."),
             { st with queries := st.queries
                 ++ [⟨buildConversation sessionId
                       (jsTrim (jsReplaceFirst raw "@_user_1" "")) st.store⟩] })) := by
  constructor
  · intro fetch req e hval hq
    simp only [teamsWebhook, hval, Bool.false_eq_true, if_false, hq]
  · intro fetch raw sessionId messageId eventId st e hcmd hq
    simp only [handleReply, hcmd, Bool.false_eq_true, if_false, hq, saveConversation]

/-- Witness for C7's amended theorem: the Teams route with a failing
transport and a valid body answers 500. -/
theorem downstream_failure_paths_witness :
    teamsWebhook (fun _ => .netError "down") ⟨some "hi", some "s1"⟩
      = ⟨500, .error "Internal Server Error. Please try again later."⟩ :=
  downstream_failure_paths.1 (fun _ => .netError "down") ⟨some "hi", some "s1"⟩
    (.network "down") rfl rfl

/-- C8.  The Teams webhook answers 400 with the fixed error body whenever
`text` or `sessionId` is missing from the flat request body; for a valid
body it answers `{message: t}` when the downstream query returns `t`,
and 500 with the generic error body when the downstream query fails. -/
theorem teams_webhook_spec :
    ∀ (fetch : FlowiseRequest → FetchResult) (req : TeamsRequest),
      ((req.text = none ∨ req.sessionId = none) →
        teamsWebhook fetch req
          = ⟨400, .error "Invalid input. \x27text\x27 and \x27sessionId\x27 are required."⟩)
      ∧ ((falsyStr req.text || falsyStr req.sessionId) = false →
          (∀ t, queryFlowise fetch (req.text.getD "") req.sessionId = .ok t →
              teamsWebhook fetch req = ⟨200, .message t⟩)
          ∧ (∀ e, queryFlowise fetch (req.text.getD "") req.sessionId = .error e →
              teamsWebhook fetch req
                = ⟨500, .error "Internal Server Error. Please try again later."⟩)) := by
  intro fetch req
  constructor
  · intro hmiss
    have hval : (falsyStr req.text || falsyStr req.sessionId) = true := by
      rcases hmiss with h | h <;> rw [h] <;> simp [falsyStr]
    simp only [teamsWebhook, hval, if_true]
  · intro hval
    constructor
    · intro t hq
      simp only [teamsWebhook, hval, Bool.false_eq_true, if_false, hq]
    · intro e hq
      simp only [teamsWebhook, hval, Bool.false_eq_true, if_false, hq]

/-- Witness for C8 at a concrete body with `text` missing. -/
theorem teams_webhook_spec_witness :
    teamsWebhook (fun _ => .netError "x") ⟨none, some "s"⟩
      = ⟨400, .error "Invalid input. \x27text\x27 and \x27sessionId\x27 are required."⟩ :=
  (teams_webhook_spec (fun _ => .netError "x") ⟨none, some "s"⟩).1 (Or.inl rfl)

theorem wfStore_empty : WfStore (MsgStore.mk [] 0) :=
  ⟨List.Pairwise.nil, fun m hm => absurd hm (List.not_mem_nil m)⟩

theorem wfStore_distinctIds (s : MsgStore) (hw : WfStore s) : DistinctIds s :=
  hw.1.imp (fun h => Nat.ne_of_lt h)

theorem wfStore_sorted (s : MsgStore) (hw : WfStore s) :
    s.msgs.Pairwise (fun x y => x.createdAt ≤ y.createdAt) :=
  hw.1.imp (fun h => Nat.le_of_lt h)

theorem wfStore_discard (sid : String) (s : MsgStore) (hw : WfStore s) :
    WfStore (discardConversation sid s) :=
  ⟨hw.1.filter _, fun m hm => hw.2 m (List.mem_filter.mp hm).1⟩

theorem wfStore_clear (sid : String) (s : MsgStore) (hw : WfStore s) :
    WfStore (clearConversation sid s) :=
  ⟨hw.1.filter _, fun m hm => hw.2 m (List.mem_filter.mp hm).1⟩

/-- Shape of a successful append: the inputs were non-empty and the
result is the trimmed store extended with the new stamped row. -/
theorem saveConversation_ok (sid q : String) (a : Option String) (s t : MsgStore)
    (h : saveConversation sid q a s = Except.ok t) :
    ∃ a0, a = some a0 ∧ (q == "" || a0 == "") = false
      ∧ t = discardConversation sid
          { msgs := s.msgs ++ [⟨sid, q, a0, q.length + a0.length, s.clock⟩],
            clock := s.clock + 1 } := by
  cases a with
  | none => exact absurd h (by simp [saveConversation])
  | some a0 =>
    cases hq : (q == "" || a0 == "") with
    | true =>
      have : saveConversation sid q (some a0) s
          = .error (.validation "Question or answer is missing or empty.") := by
        show (if (q == "" || a0 == "") = true
              then (Except.error (JsError.validation "Question or answer is missing or empty.") : Except JsError MsgStore)
              else .ok (discardConversation sid
                { msgs := s.msgs ++ [⟨sid, q, a0, q.length + a0.length, s.clock⟩],
                  clock := s.clock + 1 }))
            = .error (.validation "Question or answer is missing or empty.")
        rw [hq]
        rfl
      rw [this] at h
      exact absurd h (by simp)
    | false =>
      refine ⟨a0, rfl, hq, ?_⟩
      have hs : saveConversation sid q (some a0) s
          = .ok (discardConversation sid
              { msgs := s.msgs ++ [⟨sid, q, a0, q.length + a0.length, s.clock⟩],
                clock := s.clock + 1 }) := by
        show (if (q == "" || a0 == "") = true
              then (Except.error (JsError.validation "Question or answer is missing or empty.") : Except JsError MsgStore)
              else .ok (discardConversation sid
                { msgs := s.msgs ++ [⟨sid, q, a0, q.length + a0.length, s.clock⟩],
                  clock := s.clock + 1 }))
            = .ok (discardConversation sid
              { msgs := s.msgs ++ [⟨sid, q, a0, q.length + a0.length, s.clock⟩],
                clock := s.clock + 1 })
        rw [hq]
        rfl
      rw [hs] at h
      exact ((Except.ok.injEq _ _).mp h).symm

/-- An append preserves the store invariant: the new row is stamped with
the current clock, above every existing stamp. -/
theorem wfStore_save (sid q : String) (a : Option String) (s t : MsgStore)
    (hw : WfStore s) (h : saveConversation sid q a s = Except.ok t) : WfStore t := by
  rcases saveConversation_ok sid q a s t h with ⟨a0, _, _, ht⟩
  subst ht
  apply wfStore_discard
  constructor
  · rw [List.pairwise_append]
    refine ⟨hw.1, List.pairwise_singleton _ _, ?_⟩
    intro x hx y hy
    rw [List.mem_singleton.mp hy]
    exact hw.2 x hx
  · intro m hm
    rcases List.mem_append.mp hm with h1 | h1
    · exact Nat.lt_trans (hw.2 m h1) (Nat.lt_succ_self _)
    · rw [List.mem_singleton.mp h1]
      exact Nat.lt_succ_self _
